import Mathlib

/-!
Shallow embedding of `main.py` of the copy_and_template tool: a TOML-driven
file-copy-and-zip pipeline.  Pure values model the parsed TOML config, an
abstract filesystem, the CSV operation log, console output and produced
archives.  Effects are explicit state passing; Python exceptions are an
explicit error component of each result.
-/

set_option autoImplicit false

namespace CopyAndTemplate

/-- A TOML value as produced by `tomli.load`: the fragment of TOML the tool
touches (strings, integers, booleans, tables).  A table is an ordered
association list, mirroring Python dict insertion order. -/
inductive TomlValue where
  | str (s : String)
  | int (n : Int)
  | boolean (b : Bool)
  | table (kvs : List (String × TomlValue))

/-- Python `dict.get`: the first binding for a key (parsed TOML keys are
unique, so first-match lookup agrees with dict lookup). -/
def dictGet (d : List (String × TomlValue)) (k : String) : Option TomlValue :=
  match d with
  | [] => none
  | (k2, v) :: rest => if k2 = k then some v else dictGet rest k

/-- Python truthiness of a TOML value: empty string, zero, `False` and the
empty table are falsy. -/
def truthy : TomlValue → Bool
  | .str s => !(s == "")
  | .int n => !(n == 0)
  | .boolean b => b
  | .table kvs => !(kvs.isEmpty)

/-- Truthiness of a `dict.get` result: Python `None` (absent key) is falsy. -/
def truthyOpt : Option TomlValue → Bool
  | none => false
  | some v => truthy v

/-- Python `str()` of a scalar, as jinja2 prints a substituted variable.
(Rendering a table variable would print its dict repr; no manifest in scope
stores a table inside the variables table, so that repr is abbreviated here.) -/
def pyStr : TomlValue → String
  | .str s => s
  | .int n => toString n
  | .boolean b => if b then "True" else "False"
  | .table _ => "dict"

/-- Splitting a character list at each non-overlapping occurrence of the
nonempty separator `sep`, left to right; `cur` accumulates the current piece
reversed.  `fuel` bounds the recursion structurally; callers pass the input
length, which suffices since every step consumes at least one character. -/
def splitSepAux (sep : List Char) : Nat → List Char → List Char → List (List Char)
  | _, [], cur => [cur.reverse]
  | 0, l, cur => [cur.reverse ++ l]
  | fuel + 1, c :: rest, cur =>
    if sep.isPrefixOf (c :: rest) then
      cur.reverse :: splitSepAux sep fuel (List.drop sep.length (c :: rest)) []
    else
      splitSepAux sep fuel rest (c :: cur)

/-- Python `s.split(sep)` for a nonempty separator (the semantics
`String.splitOn` also has on such inputs), implemented by structural
recursion. -/
def splitOnStr (s sep : String) : List String :=
  if sep.data.isEmpty then [s]
  else (splitSepAux sep.data s.data.length s.data []).map fun cs => ⟨cs⟩

/-- Whitespace trim at both ends (jinja2 trims the variable name inside the
delimiters). -/
def trimStr (s : String) : String :=
  ⟨((s.data.dropWhile Char.isWhitespace).reverse.dropWhile Char.isWhitespace).reverse⟩

/-- Python `s.startswith(pre)`. -/
def strStartsWith (s pre : String) : Bool := pre.data.isPrefixOf s.data

/-- The string substituted for one `variable` reference.  jinja2 renders an
undefined name with its default `Undefined`, whose string form is the empty
string: a missing variable is silently replaced by `""`, no exception. -/
def renderVar (vars : List (String × TomlValue)) (name : String) : String :=
  match dictGet vars name with
  | none => ""
  | some v => pyStr v

/-- Rendering of one piece that followed an opening `\x7b\x7b` delimiter: the
text up to the closing `\x7d\x7d` is the (whitespace-trimmed) variable name,
the rest is literal. -/
def renderPiece (vars : List (String × TomlValue)) (piece : String) : String :=
  match splitOnStr piece "\x7d\x7d" with
  | [] => ""
  | varPart :: after => renderVar vars (trimStr varPart) ++ String.intercalate "\x7d\x7d" after

/-- `render_path` (main.py lines 23-26): jinja2 template rendering of
`path_template` against the variables mapping, for the substitution-only
templates the tool uses.  Argument order follows the source. -/
def render_path (path_template : String) (vars : List (String × TomlValue)) : String :=
  match splitOnStr path_template "\x7b\x7b" with
  | [] => ""
  | first :: rest => first ++ String.join (rest.map (renderPiece vars))

/-- `PurePath.is_absolute` on POSIX. -/
def isAbsolute (p : String) : Bool := strStartsWith p "/"

/-- The real segments of a path as pathlib keeps them: split on the
separator, dropping empty and `.` segments (pathlib elides both when it
parses a path; `..` segments are kept, since pathlib does not resolve
them). -/
def pathSegs (p : String) : List String :=
  (splitOnStr p "/").filter fun s => !(s == "" || s == ".")

/-- Joining path segments with the separator. -/
def joinSegs : List String → String
  | [] => ""
  | [s] => s
  | s :: rest => s ++ "/" ++ joinSegs rest

/-- pathlib `/` join.  An absolute right operand discards the left operand
and is kept with its real segments, as pathlib prints it (the POSIX
double-slash root is not modelled).  A relative right operand contributes
its real segments, so joining `""`, `"."` or a path of only such segments
changes nothing.  Joining onto `.` or the empty path (which pathlib reads
as `.`) yields the right operand alone.  Left operands are taken to be
already in pathlib form, as every path the program joins onto is. -/
def pathJoin (a b : String) : String :=
  if isAbsolute b then "/" ++ joinSegs (pathSegs b)
  else
    let segs := pathSegs b
    if segs.isEmpty then a
    else if a = "" ∨ a = "." then joinSegs segs
    else a ++ "/" ++ joinSegs segs

/-- `Path(p).name`: the final path component. -/
def pathName (p : String) : String := (splitOnStr p "/").getLastD ""

/-- `Path(p).stem`: the final component without its last suffix.  pathlib only
recognises a suffix when the dot is neither the first nor the last character
of the name. -/
def stem (p : String) : String :=
  let n := pathName p
  let parts := splitOnStr n "."
  if parts.length ≤ 1 then n
  else if parts.length = 2 && parts.headD "" == "" then n
  else if parts.getLastD "" == "" then n
  else String.intercalate "." parts.dropLast

/-- `Path(p).parent` as a string (for `p` with at least one separator this
drops the final component; a bare name has parent `.`). -/
def parentPath (p : String) : String :=
  let parts := splitOnStr p "/"
  if parts.length ≤ 1 then "."
  else String.intercalate "/" parts.dropLast

/-- The directories `mkdir(parents=True)` brings into existence for `p`:
every proper prefix of `p` and `p` itself. -/
def ancestors (p : String) : List String :=
  let parts := splitOnStr p "/"
  ((List.range (parts.length - 1)).map fun i => String.intercalate "/" (parts.take (i + 1))) ++ [p]

/-- Contents and modification timestamp of one regular file.  `copy2`
preserves both, so both are carried. -/
structure FileData where
  bytes : List Nat
  mtime : Nat
deriving Repr, DecidableEq

/-- The filesystem fragment the tool reads and writes: regular files (path to
data) and directories. -/
structure FS where
  files : List (String × FileData)
  dirs : List String
deriving Repr, DecidableEq

/-- First-match lookup of a regular file by path. -/
def lookupFile : List (String × FileData) → String → Option FileData
  | [], _ => none
  | (q, d) :: rest, p => if q = p then some d else lookupFile rest p

def fsGet (fs : FS) (p : String) : Option FileData := lookupFile fs.files p

/-- `Path.is_dir`. -/
def isDir (fs : FS) (p : String) : Bool := decide (p ∈ fs.dirs)

/-- `Path.exists`: true for a regular file or a directory at `p`. -/
def existsPath (fs : FS) (p : String) : Bool := (fsGet fs p).isSome || decide (p ∈ fs.dirs)

/-- Writing a regular file: overwrites any previous file at the same path. -/
def fsWrite (fs : FS) (p : String) (d : FileData) : FS :=
  { fs with files := (p, d) :: fs.files.filter fun q => decide (¬ q.1 = p) }

/-- `Path(p).mkdir(parents=True, exist_ok=True)`. -/
def mkdirParents (fs : FS) (p : String) : FS :=
  { fs with dirs := ancestors p ++ fs.dirs }

/-- The Python exceptions the embedded code can raise.  `systemExit` is
`sys.exit()` with no argument: it raises `SystemExit(None)`, which is not an
`Exception`, and signals process exit status 0. -/
inductive PyError where
  | valueError (msg : String)
  | typeError
  | attributeError
  | systemExit
  | sameFileError
  | isADirectoryError
  | fileNotFoundError
deriving Repr, DecidableEq

/-- `shutil.copy2(src, dst)`: a destination that is a directory redirects to
`dst/name(src)`; copying a path onto itself raises `SameFileError`; a source
directory raises `IsADirectoryError`; otherwise bytes and timestamps are
copied. -/
def copy2 (fs : FS) (src dst : String) : Except PyError FS :=
  let realDst := if isDir fs dst then pathJoin dst (pathName src) else dst
  if src = realDst then .error .sameFileError
  else
    match fsGet fs src with
    | some d => .ok (fsWrite fs realDst d)
    | none => if isDir fs src then .error .isADirectoryError else .error .fileNotFoundError

/-- Console messages the tool prints, by content. -/
inductive Msg where
  | warnMissingField (sectionName : String)
  | errSourceNotFound (source : String)
  | copied (srcRendered : String) (dstShown : String)
  | addedToZip (arc : String)
  | createdZip (name : String)
  | passwordProtected
  | dirPreserved (d : String)
  | zipDisabled (d : String)
deriving Repr, DecidableEq

/-- One CSV row of the operation log after the header: operation (`copy` or
`zip`), source, destination.  The wall-clock timestamp column is not
modelled. -/
structure LogEntry where
  op : String
  source : String
  dest : String
deriving Repr, DecidableEq

/-- An archive written to disk: either a plain deflate zip (`zipfile` branch)
or a password-protected zip (`pyminizip.compress_multiple` with a compression
level).  Entries pair each archive name with the file data stored under it. -/
inductive Archive where
  | plain (entries : List (String × FileData))
  | encrypted (password : String) (level : Nat) (entries : List (String × FileData))
deriving Repr, DecidableEq

/-- The observable run state: filesystem, whether the log header row was
written, log rows, console output, archives written. -/
structure State where
  fs : FS
  logInit : Bool
  log : List LogEntry
  out : List Msg
  archives : List (String × Archive)
deriving Repr, DecidableEq

/-- True of a path strictly inside directory `dir` (has `dir/` as a prefix). -/
def underDir (p dir : String) : Bool := (dir ++ "/").data.isPrefixOf p.data

/-- `temp_dir.rglob(asterisk)` restricted to regular files, as the archive
phase enumerates it (traversal order is OS-dependent; modelled as the file
list order). -/
def rglobFiles (fs : FS) (dir : String) : List (String × FileData) :=
  fs.files.filter fun q => underDir q.1 dir

/-- `file.relative_to(temp_dir)` for a file under `temp_dir`. -/
def relTo (dir p : String) : String := p.drop (dir.length + 1)

/-- The (archive name, data) pairs the archive phase stores: every regular
file under `dir` keyed by its path relative to `dir`. -/
def stagedEntries (fs : FS) (dir : String) : List (String × FileData) :=
  (rglobFiles fs dir).map fun q => (relTo dir q.1, q.2)

/-- One iteration of the copy loop (main.py lines 58-85) for section
`section_name` holding table `file_config`.  Returns the successor state and
the exception, if any, that escaped the iteration.  `sys.exit()` on a missing
source is guarded by `verbose` in the source; with `verbose` false the rule
falls through to `continue`. -/
def processRule (vars : List (String × TomlValue)) (base_dir temp_dir temp_dir_name : String)
    (verbose logOn : Bool) (section_name : String) (file_config : List (String × TomlValue))
    (st : State) : State × Option PyError :=
  let from_val := dictGet file_config "from"
  let to_val := dictGet file_config "to"
  if !(truthyOpt from_val) || !(truthyOpt to_val) then
    (if verbose then { st with out := st.out ++ [Msg.warnMissingField section_name] } else st, none)
  else
    match from_val, to_val with
    | some (TomlValue.str from_path), some (TomlValue.str to_path) =>
      let from_path_rendered := render_path from_path vars
      let to_path_rendered := render_path to_path vars
      let source := if isAbsolute from_path_rendered then from_path_rendered
                    else pathJoin base_dir from_path_rendered
      let destination := pathJoin temp_dir to_path_rendered
      if !(existsPath st.fs source) then
        if verbose then
          ({ st with out := st.out ++ [Msg.errSourceNotFound source] }, some PyError.systemExit)
        else (st, none)
      else
        let fs1 := mkdirParents st.fs (parentPath destination)
        match copy2 fs1 source destination with
        | .error e => ({ st with fs := fs1 }, some e)
        | .ok fs2 =>
          ({ st with
              fs := fs2
              log := st.log ++ (if logOn then [⟨"copy", source, destination⟩] else [])
              out := st.out ++ (if verbose then
                [Msg.copied from_path_rendered (temp_dir_name ++ "/" ++ to_path_rendered)] else []) },
           none)
    | _, _ => (st, some PyError.typeError)

/-- The `for section_name, file_config in file_sections.items()` loop: runs
each rule in declaration order, stopping at the first escaping exception. -/
def processRulesLoop (vars : List (String × TomlValue))
    (base_dir temp_dir temp_dir_name : String) (verbose logOn : Bool) :
    List (String × List (String × TomlValue)) → State → State × Option PyError
  | [], st => (st, none)
  | (name, t) :: rest, st =>
    match processRule vars base_dir temp_dir temp_dir_name verbose logOn name t st with
    | (st1, none) => processRulesLoop vars base_dir temp_dir temp_dir_name verbose logOn rest st1
    | (st1, some e) => (st1, some e)

/-- main.py line 57: the sections whose key starts with `file` and whose
value is a table, in declaration order. -/
def fileSections (config : List (String × TomlValue)) :
    List (String × List (String × TomlValue)) :=
  config.filterMap fun kv =>
    match kv with
    | (k, TomlValue.table t) => if strStartsWith k "file" then some (k, t) else none
    | _ => none

/-- The archive phase (main.py lines 89-138).  With `zip_output_enabled`
false nothing happens beyond a console message.  A truthy password selects
the pyminizip branch: it compresses only when the file set is nonempty, at
compression level 5 (a non-string truthy password would make pyminizip raise).
Otherwise the plain `zipfile` branch always writes a deflate archive, adding
every regular file under the staging directory under its relative path. -/
def buildArchive (zip_path temp_dir zip_file_name temp_dir_name : String)
    (zip_password : Option TomlValue) (zip_output_enabled : Bool)
    (verbose logOn : Bool) (st : State) : State × Option PyError :=
  if zip_output_enabled then
    let inner : State × Option PyError :=
      if truthyOpt zip_password then
        match zip_password with
        | some (TomlValue.str pw) =>
          let file_list := rglobFiles st.fs temp_dir
          if file_list.isEmpty then (st, none)
          else
            ({ st with
                archives := st.archives ++
                  [(zip_path, Archive.encrypted pw 5 (stagedEntries st.fs temp_dir))]
                log := st.log ++ (if logOn then
                  file_list.map (fun q => ⟨"zip", q.1, relTo temp_dir q.1⟩) else [])
                out := st.out ++ (if verbose then
                  file_list.map (fun q => Msg.addedToZip (relTo temp_dir q.1)) else []) },
             none)
        | _ => (st, some PyError.typeError)
      else
        ({ st with
            archives := st.archives ++ [(zip_path, Archive.plain (stagedEntries st.fs temp_dir))]
            log := st.log ++ (if logOn then
              (rglobFiles st.fs temp_dir).map (fun q => ⟨"zip", q.1, relTo temp_dir q.1⟩) else [])
            out := st.out ++ (if verbose then
              (rglobFiles st.fs temp_dir).map (fun q => Msg.addedToZip (relTo temp_dir q.1)) else []) },
         none)
    match inner with
    | (st1, some e) => (st1, some e)
    | (st1, none) =>
      (if verbose then
        { st1 with out := st1.out ++ [Msg.createdZip zip_file_name] ++
            (if truthyOpt zip_password then [Msg.passwordProtected] else []) ++
            [Msg.dirPreserved temp_dir_name] }
       else st1, none)
  else
    (if verbose then { st with out := st.out ++ [Msg.zipDisabled temp_dir_name] } else st, none)

/-- The `vars` mapping `process_files` works with: the `vars` table,
or the empty mapping when the key is absent.  `none` marks a present
non-table value, which makes the very first `render_path` call (line 41)
raise. -/
def getVariables (config : List (String × TomlValue)) :
    Option (List (String × TomlValue)) :=
  match dictGet config "variables" with
  | some (TomlValue.table t) => some t
  | none => some []
  | some _ => none

/-- Body of `process_files` once the `zip` table, the `file_name` template
string and the vars mapping are in hand (main.py lines 40-139): render
the zip name, derive the staging directory, truncate and head the log if a
log path was given, run the copy loop, then the archive phase. -/
def processFilesCore (config : List (String × TomlValue))
    (zip_config : List (String × TomlValue)) (vars : List (String × TomlValue))
    (base_dir : String) (verbose logOn : Bool) (zip_file_name_t : String)
    (st : State) : State × Except PyError (String × String) :=
  let zip_file_name := render_path zip_file_name_t vars
  let zip_password := dictGet zip_config "password"
  let zip_output_enabled :=
    match dictGet zip_config "output_enabled" with
    | none => true
    | some v => truthy v
  let temp_dir_name := stem zip_file_name
  let temp_dir := pathJoin base_dir temp_dir_name
  let st0 := if logOn then { st with logInit := true, log := [] } else st
  let zip_path := pathJoin base_dir zip_file_name
  match processRulesLoop vars base_dir temp_dir temp_dir_name verbose logOn
      (fileSections config) st0 with
  | (st1, some e) => (st1, Except.error e)
  | (st1, none) =>
    match buildArchive zip_path temp_dir zip_file_name temp_dir_name zip_password
        zip_output_enabled verbose logOn st1 with
    | (st2, some e) => (st2, Except.error e)
    | (st2, none) => (st2, Except.ok (temp_dir, zip_path))

/-- `process_files` (main.py lines 30-139).  A falsy `zip` value (absent key,
or an empty table) raises `ValueError` before any I/O; a truthy non-table
`zip` value raises `AttributeError` at the first `.get` call (line 40); a
non-string `file_name` or non-table `vars` raises at the line-41 render.
Returns the final state and either the escaping exception or the
`(temp_dir, zip_path)` pair the function returns. -/
def process_files (config : List (String × TomlValue)) (base_dir : String)
    (verbose logOn : Bool) (st : State) : State × Except PyError (String × String) :=
  match dictGet config "zip" with
  | none => (st, Except.error (PyError.valueError "[zip] section is required in TOML"))
  | some (TomlValue.table zip_config) =>
    if zip_config.isEmpty then
      (st, Except.error (PyError.valueError "[zip] section is required in TOML"))
    else
      match dictGet zip_config "file_name" with
      | some (TomlValue.str fn) =>
        match getVariables config with
        | some vars => processFilesCore config zip_config vars base_dir verbose logOn fn st
        | none => (st, Except.error PyError.typeError)
      | none =>
        match getVariables config with
        | some vars =>
          processFilesCore config zip_config vars base_dir verbose logOn "output.zip" st
        | none => (st, Except.error PyError.typeError)
      | some _ => (st, Except.error PyError.typeError)
  | some v =>
    if truthy v then (st, Except.error PyError.attributeError)
    else (st, Except.error (PyError.valueError "[zip] section is required in TOML"))

/-- `main` (main.py lines 144-168), for an already-parsed config: the process
exit status.  `except Exception` converts tool exceptions to `sys.exit(1)`;
`SystemExit` is not an `Exception`, so the bare `sys.exit()` of the missing-
source branch propagates and the process exits with status 0. -/
def mainExitCode (config : List (String × TomlValue)) (base_dir : String)
    (quiet : Bool) (st : State) : Nat :=
  match (process_files config base_dir (!quiet) true st).2 with
  | Except.ok _ => 0
  | Except.error PyError.systemExit => 0
  | Except.error _ => 1

/-- Decidable equality of run results, so that concrete runs can be checked
by evaluation. -/
instance {ε α : Type} [DecidableEq ε] [DecidableEq α] : DecidableEq (Except ε α) := fun a b =>
  match a, b with
  | Except.ok x, Except.ok y =>
    if h : x = y then Decidable.isTrue (by rw [h])
    else Decidable.isFalse fun he => h (by rwa [Except.ok.injEq] at he)
  | Except.error x, Except.error y =>
    if h : x = y then Decidable.isTrue (by rw [h])
    else Decidable.isFalse fun he => h (by rwa [Except.error.injEq] at he)
  | Except.ok _, Except.error _ => Decidable.isFalse fun he => Except.noConfusion he
  | Except.error _, Except.ok _ => Decidable.isFalse fun he => Except.noConfusion he

/-! Concrete example inputs used by counterexamples and witnesses. -/

/-- A base directory `base` holding one source file `base/b.txt`. -/
def exFS : FS := ⟨[("base/b.txt", ⟨[98], 5⟩)], ["base"]⟩

/-- The pristine run state over `exFS`. -/
def exState : State := ⟨exFS, false, [], [], []⟩

/-- Manifest whose first rule has a missing source (`base/missing.txt` does
not exist) and whose second rule is valid. -/
def exCfgMissingSrc : List (String × TomlValue) :=
  [("zip", TomlValue.table [("file_name", TomlValue.str "out.zip")]),
   ("file1", TomlValue.table [("from", TomlValue.str "missing.txt"), ("to", TomlValue.str "a.txt")]),
   ("file2", TomlValue.table [("from", TomlValue.str "b.txt"), ("to", TomlValue.str "b.txt")])]

/-- Manifest whose single rule renders an absolute `to` path. -/
def exCfgAbsTo : List (String × TomlValue) :=
  [("zip", TomlValue.table [("file_name", TomlValue.str "out.zip")]),
   ("file1", TomlValue.table [("from", TomlValue.str "b.txt"), ("to", TomlValue.str "/abs/x.txt")])]

/-- Manifest whose zip section carries an empty-string password. -/
def exCfgEmptyPw : List (String × TomlValue) :=
  [("zip", TomlValue.table [("file_name", TomlValue.str "out.zip"),
      ("password", TomlValue.str "")]),
   ("file2", TomlValue.table [("from", TomlValue.str "b.txt"), ("to", TomlValue.str "b.txt")])]

/-- A path formed by appending below `dir` lies under `dir`. -/
theorem underDir_append (dir rest : String) : underDir (dir ++ "/" ++ rest) dir = true := by
  simp only [underDir]
  rw [String.data_append]
  exact List.isPrefixOf_iff_prefix.mpr (List.prefix_append ..)

/-- Lookup distributes over append when no key of the front list matches. -/
theorem lookupFile_append_right (l1 l2 : List (String × FileData)) (p : String)
    (h : ∀ q ∈ l1, ¬ q.1 = p) : lookupFile (l1 ++ l2) p = lookupFile l2 p := by
  induction l1 with
  | nil => rfl
  | cons a rest ih =>
    obtain ⟨k, d⟩ := a
    have hk : ¬ k = p := h (k, d) (List.mem_cons_self ..)
    simp only [List.cons_append, lookupFile, if_neg hk]
    exact ih fun q hq => h q (List.mem_cons_of_mem _ hq)

/-- Claim C1 (code bug, divergence exhibited): on a manifest whose first rule
has a missing source and whose second rule is valid, the quiet run does not
terminate at the bad rule: it copies the later rule, builds the archive and
returns successfully; the verbose run does stop, but via a bare `sys.exit()`
whose process exit status is 0.  Both contradict the claimed
`fatal regardless of verbosity with a non-zero exit status`. -/
theorem c1_missing_source_divergence :
    (process_files exCfgMissingSrc "base" false false exState).2
        = Except.ok ("base/out", "base/out.zip")
    ∧ fsGet (process_files exCfgMissingSrc "base" false false exState).1.fs "base/out/b.txt"
        = some ⟨[98], 5⟩
    ∧ (process_files exCfgMissingSrc "base" false false exState).1.archives
        = [("base/out.zip", Archive.plain [("b.txt", ⟨[98], 5⟩)])]
    ∧ (process_files exCfgMissingSrc "base" true false exState).2
        = Except.error PyError.systemExit
    ∧ mainExitCode exCfgMissingSrc "base" true exState = 0
    ∧ mainExitCode exCfgMissingSrc "base" false exState = 0 := by
  decide

/-- Claim C4: a manifest lacking a `zip` section makes `process_files` raise
`ValueError` with the whole run state untouched: no staging directory, no
copied file, no log header row. -/
theorem c4_missing_zip_aborts_untouched (config : List (String × TomlValue))
    (base_dir : String) (verbose logOn : Bool) (st : State)
    (h : dictGet config "zip" = none) :
    process_files config base_dir verbose logOn st
      = (st, Except.error (PyError.valueError "[zip] section is required in TOML")) := by
  simp only [process_files, h]

/-- Witness for C4: a manifest with only a file rule. -/
theorem c4_witness :
    process_files [("file1", TomlValue.table
        [("from", TomlValue.str "b.txt"), ("to", TomlValue.str "x.txt")])] "base" true true exState
      = (exState, Except.error (PyError.valueError "[zip] section is required in TOML")) :=
  c4_missing_zip_aborts_untouched _ "base" true true exState rfl

/-- Claim C7: a `file` section with a falsy (absent or empty) `from` or `to`
is skipped with at most a console warning: the loop continues on the
remaining rules from a state whose filesystem, log and archives are
untouched. -/
theorem c7_invalid_rule_skipped (vars : List (String × TomlValue))
    (base_dir temp_dir temp_dir_name : String) (verbose logOn : Bool)
    (name : String) (t : List (String × TomlValue))
    (rest : List (String × List (String × TomlValue))) (st : State)
    (h : truthyOpt (dictGet t "from") = false ∨ truthyOpt (dictGet t "to") = false) :
    processRulesLoop vars base_dir temp_dir temp_dir_name verbose logOn ((name, t) :: rest) st
      = processRulesLoop vars base_dir temp_dir temp_dir_name verbose logOn rest
          (if verbose then { st with out := st.out ++ [Msg.warnMissingField name] } else st) := by
  have hc : (!(truthyOpt (dictGet t "from")) || !(truthyOpt (dictGet t "to"))) = true := by
    rcases h with h | h <;> simp [h]
  have hr : processRule vars base_dir temp_dir temp_dir_name verbose logOn name t st
      = (if verbose then { st with out := st.out ++ [Msg.warnMissingField name] } else st, none) := by
    unfold processRule
    dsimp only
    rw [hc]
    rfl
  show (match processRule vars base_dir temp_dir temp_dir_name verbose logOn name t st with
      | (st1, none) =>
        processRulesLoop vars base_dir temp_dir temp_dir_name verbose logOn rest st1
      | (st1, some e) => (st1, some e))
    = processRulesLoop vars base_dir temp_dir temp_dir_name verbose logOn rest
        (if verbose then { st with out := st.out ++ [Msg.warnMissingField name] } else st)
  rw [hr]

/-- Witness for C7: a rule missing `to` is skipped and the remaining valid
rule still runs. -/
theorem c7_witness :
    processRulesLoop [] "base" "base/out" "out" true false
        [("file1", [("from", TomlValue.str "b.txt")]),
         ("file2", [("from", TomlValue.str "b.txt"), ("to", TomlValue.str "b.txt")])] exState
      = processRulesLoop [] "base" "base/out" "out" true false
          [("file2", [("from", TomlValue.str "b.txt"), ("to", TomlValue.str "b.txt")])]
          (if true then { exState with out := exState.out ++ [Msg.warnMissingField "file1"] }
           else exState) :=
  c7_invalid_rule_skipped [] "base" "base/out" "out" true false
    "file1" [("from", TomlValue.str "b.txt")]
    [("file2", [("from", TomlValue.str "b.txt"), ("to", TomlValue.str "b.txt")])]
    exState (Or.inr rfl)

/-- Claim C6 (counterexample): with a rule whose rendered `to` path is
absolute, the resolved destination does not lie under the staging directory
`base/out`: the file is written at the absolute path and the staging
directory stays empty of files. -/
theorem c6_absolute_to_escapes_staging :
    underDir "/abs/x.txt" "base/out" = false
    ∧ fsGet (process_files exCfgAbsTo "base" false false exState).1.fs "/abs/x.txt"
        = some ⟨[98], 5⟩
    ∧ rglobFiles (process_files exCfgAbsTo "base" false false exState).1.fs "base/out" = []
    ∧ (process_files exCfgAbsTo "base" false false exState).2
        = Except.ok ("base/out", "base/out.zip") := by
  decide

/-- Claim C6 (amended): the resolved destination is the pathlib join of the
staging directory with the rendered `to` path.  An absolute rendered `to`
discards the staging directory entirely: the destination is that absolute
path (its real segments), whatever the staging directory was.  A relative
rendered `to` with no real segment (empty, or only `.` segments) resolves
to the staging directory itself.  A relative rendered `to` with at least
one real segment resolves strictly under the staging directory as a path —
pathlib does not resolve `..` segments, so such a destination can still
refer outside the staging directory on disk. -/
theorem c6_amended_destination_join (temp_dir to_rendered : String) :
    (isAbsolute to_rendered = true →
        pathJoin temp_dir to_rendered = "/" ++ joinSegs (pathSegs to_rendered)
        ∧ ∀ other : String, pathJoin other to_rendered = pathJoin temp_dir to_rendered)
    ∧ (isAbsolute to_rendered = false → ¬ temp_dir = "" → ¬ temp_dir = "." →
        pathSegs to_rendered = [] →
        pathJoin temp_dir to_rendered = temp_dir)
    ∧ (isAbsolute to_rendered = false → ¬ temp_dir = "" → ¬ temp_dir = "." →
        ¬ pathSegs to_rendered = [] →
        pathJoin temp_dir to_rendered = temp_dir ++ "/" ++ joinSegs (pathSegs to_rendered)
        ∧ underDir (pathJoin temp_dir to_rendered) temp_dir = true) := by
  refine ⟨?_, ?_, ?_⟩
  · intro habs
    constructor
    · simp [pathJoin, habs]
    · intro other
      simp [pathJoin, habs]
  · intro hrel h1 h2 hnil
    simp [pathJoin, hrel, hnil]
  · intro hrel h1 h2 hne
    cases hseg : pathSegs to_rendered with
    | nil => exact absurd hseg hne
    | cons s rest =>
      have hj : pathJoin temp_dir to_rendered
          = temp_dir ++ "/" ++ joinSegs (s :: rest) := by
        simp [pathJoin, hrel, hseg, h1, h2]
      exact ⟨hj, by rw [hj]; exact underDir_append ..⟩

/-- Witness for C6 amended: the three branches at concrete paths — an
absolute `to`, the plain `.` `to` the program resolves to the staging
directory itself, and an ordinary relative `to`. -/
theorem c6_amended_witness :
    pathJoin "base/out" "/abs/x.txt" = "/" ++ joinSegs (pathSegs "/abs/x.txt")
    ∧ pathJoin "base/out" "." = "base/out"
    ∧ underDir (pathJoin "base/out" "b.txt") "base/out" = true :=
  ⟨((c6_amended_destination_join "base/out" "/abs/x.txt").1 (by decide)).1,
   (c6_amended_destination_join "base/out" ".").2.1 (by decide) (by decide) (by decide)
     (by decide),
   ((c6_amended_destination_join "base/out" "b.txt").2.2 (by decide) (by decide) (by decide)
     (by decide)).2⟩

/-- Claim C10: a manifest whose zip section sets `password` to the empty
string takes the plain (unencrypted deflate) branch: the archive produced is
a plain zip even though the password key is present. -/
theorem c10_empty_password_plain_zip :
    (dictGet [("file_name", TomlValue.str "out.zip"), ("password", TomlValue.str "")]
        "password").isSome = true
    ∧ truthyOpt (dictGet [("file_name", TomlValue.str "out.zip"), ("password", TomlValue.str "")]
        "password") = false
    ∧ (process_files exCfgEmptyPw "base" false false exState).1.archives
        = [("base/out.zip", Archive.plain [("b.txt", ⟨[98], 5⟩)])]
    ∧ (process_files exCfgEmptyPw "base" false false exState).2
        = Except.ok ("base/out", "base/out.zip") := by
  decide

/-- A copy-loop iteration never touches the archives and appends at most one
`copy` row to the log. -/
theorem processRule_frame (vars : List (String × TomlValue))
    (base_dir temp_dir temp_dir_name : String) (verbose logOn : Bool)
    (name : String) (t : List (String × TomlValue)) (st : State) :
    (processRule vars base_dir temp_dir temp_dir_name verbose logOn name t st).1.archives
      = st.archives
    ∧ ((processRule vars base_dir temp_dir temp_dir_name verbose logOn name t st).1.log = st.log
       ∨ ∃ s d, (processRule vars base_dir temp_dir temp_dir_name verbose logOn name t st).1.log
          = st.log ++ [(⟨"copy", s, d⟩ : LogEntry)]) := by
  unfold processRule
  dsimp only
  split
  case isTrue => split <;> exact ⟨rfl, Or.inl rfl⟩
  case isFalse =>
    split
    case h_1 from_path to_path heq1 heq2 =>
      generalize (if isAbsolute (render_path from_path vars) = true then render_path from_path vars
        else pathJoin base_dir (render_path from_path vars)) = src
      generalize pathJoin temp_dir (render_path to_path vars) = dst
      split
      case isTrue => cases verbose <;> exact ⟨rfl, Or.inl rfl⟩
      case isFalse =>
        split
        case h_1 => exact ⟨rfl, Or.inl rfl⟩
        case h_2 =>
          refine ⟨rfl, ?_⟩
          cases logOn
          case false => exact Or.inl (by simp)
          case true => exact Or.inr ⟨_, _, rfl⟩
    case h_2 => exact ⟨rfl, Or.inl rfl⟩

/-- The copy loop never touches the archives. -/
theorem processRulesLoop_archives (vars : List (String × TomlValue))
    (base_dir temp_dir temp_dir_name : String) (verbose logOn : Bool)
    (rules : List (String × List (String × TomlValue))) :
    ∀ st : State,
      (processRulesLoop vars base_dir temp_dir temp_dir_name verbose logOn rules st).1.archives
        = st.archives := by
  induction rules with
  | nil => intro st; rfl
  | cons r rest ih =>
    intro st
    obtain ⟨name, t⟩ := r
    have hstep :=
      (processRule_frame vars base_dir temp_dir temp_dir_name verbose logOn name t st).1
    show (match processRule vars base_dir temp_dir temp_dir_name verbose logOn name t st with
        | (st1, none) =>
          processRulesLoop vars base_dir temp_dir temp_dir_name verbose logOn rest st1
        | (st1, some e) => (st1, some e)).1.archives = st.archives
    rcases hres : processRule vars base_dir temp_dir temp_dir_name verbose logOn name t st
      with ⟨st1, e⟩
    rw [hres] at hstep
    have hstep2 : st1.archives = st.archives := by simpa using hstep
    cases e with
    | none => exact (ih st1).trans hstep2
    | some e => exact hstep2

/-- Every log row the copy loop adds is a `copy` row. -/
theorem processRulesLoop_log_mem (vars : List (String × TomlValue))
    (base_dir temp_dir temp_dir_name : String) (verbose logOn : Bool)
    (rules : List (String × List (String × TomlValue))) :
    ∀ (st : State) (e : LogEntry),
      e ∈ (processRulesLoop vars base_dir temp_dir temp_dir_name verbose logOn rules st).1.log →
      e ∈ st.log ∨ e.op = "copy" := by
  induction rules with
  | nil => intro st e he; exact Or.inl he
  | cons r rest ih =>
    intro st e he
    obtain ⟨name, t⟩ := r
    have hstep :=
      (processRule_frame vars base_dir temp_dir temp_dir_name verbose logOn name t st).2
    rw [show processRulesLoop vars base_dir temp_dir temp_dir_name verbose logOn
          ((name, t) :: rest) st
        = (match processRule vars base_dir temp_dir temp_dir_name verbose logOn name t st with
          | (st1, none) =>
            processRulesLoop vars base_dir temp_dir temp_dir_name verbose logOn rest st1
          | (st1, some e2) => (st1, some e2)) from rfl] at he
    rcases hres : processRule vars base_dir temp_dir temp_dir_name verbose logOn name t st
      with ⟨st1, e2⟩
    rw [hres] at he hstep
    have hstep2 : st1.log = st.log ∨ ∃ s d, st1.log = st.log ++ [(⟨"copy", s, d⟩ : LogEntry)] := by
      simpa using hstep
    have hmem1 : e ∈ st1.log → e ∈ st.log ∨ e.op = "copy" := by
      intro h1
      rcases hstep2 with hl | ⟨s, d, hl⟩
      · exact Or.inl (hl ▸ h1)
      · rw [hl] at h1
        rcases List.mem_append.mp h1 with h2 | h2
        · exact Or.inl h2
        · right
          rw [List.mem_singleton.mp h2]
    cases e2 with
    | none =>
      rcases ih st1 e he with h1 | h1
      · exact hmem1 h1
      · exact Or.inr h1
    | some e2 => exact hmem1 he

/-- Claim C5: strategy dispatch in the archive phase is binary with no
fallback.  With a nonempty password the pyminizip (encrypted) strategy runs:
the only archive that can be appended is an encrypted one with that password
at compression level 5, holding the staged entries (none when the staging
directory holds no file) — the plain writer is never invoked.  With no
password the plain deflate strategy always writes one archive holding every
regular file under the staging directory keyed by its path relative to the
staging directory. -/
theorem c5_password_binary_dispatch (zip_path temp_dir zfn tdn : String)
    (verbose logOn : Bool) (st : State) (p : String) (hp : ¬ p = "") :
    ((buildArchive zip_path temp_dir zfn tdn (some (TomlValue.str p)) true verbose logOn
          st).1.archives
        = st.archives ++ (if (rglobFiles st.fs temp_dir).isEmpty then []
            else [(zip_path, Archive.encrypted p 5 (stagedEntries st.fs temp_dir))])
      ∧ (buildArchive zip_path temp_dir zfn tdn (some (TomlValue.str p)) true verbose logOn
          st).2 = none)
    ∧ ((buildArchive zip_path temp_dir zfn tdn none true verbose logOn st).1.archives
        = st.archives ++ [(zip_path, Archive.plain (stagedEntries st.fs temp_dir))]
      ∧ (buildArchive zip_path temp_dir zfn tdn none true verbose logOn st).2 = none) := by
  have ht : truthyOpt (some (TomlValue.str p)) = true := by
    simp [truthyOpt, truthy, hp]
  refine ⟨?_, ?_⟩
  · by_cases he : (rglobFiles st.fs temp_dir).isEmpty
    · cases verbose <;> simp [buildArchive, ht, he]
    · cases verbose <;> simp [buildArchive, ht, he]
  · cases verbose <;> simp [buildArchive, truthyOpt]

/-- Witness for C5: the dispatch at a concrete state and password. -/
theorem c5_witness :
    ((buildArchive "base/out.zip" "base/out" "out.zip" "out" (some (TomlValue.str "pw")) true
          true false exState).1.archives
        = exState.archives ++ (if (rglobFiles exState.fs "base/out").isEmpty then []
            else [("base/out.zip", Archive.encrypted "pw" 5 (stagedEntries exState.fs "base/out"))])
      ∧ (buildArchive "base/out.zip" "base/out" "out.zip" "out" (some (TomlValue.str "pw")) true
          true false exState).2 = none)
    ∧ ((buildArchive "base/out.zip" "base/out" "out.zip" "out" none true true false
          exState).1.archives
        = exState.archives ++ [("base/out.zip", Archive.plain (stagedEntries exState.fs "base/out"))]
      ∧ (buildArchive "base/out.zip" "base/out" "out.zip" "out" none true true false
          exState).2 = none) :=
  c5_password_binary_dispatch "base/out.zip" "base/out" "out.zip" "out" true false exState "pw"
    (by decide)

/-- Claim C8: under the encrypted strategy, an empty staged file set makes
the archive phase a silent no-op rather than an error: no archive is
appended, no `zip` log row is written, the filesystem is untouched, and no
exception escapes (only the final console messages are still printed when
verbose). -/
theorem c8_encrypted_empty_silent_noop (zip_path temp_dir zfn tdn p : String)
    (verbose logOn : Bool) (st : State) (hp : ¬ p = "")
    (hempty : rglobFiles st.fs temp_dir = []) :
    buildArchive zip_path temp_dir zfn tdn (some (TomlValue.str p)) true verbose logOn st
      = (if verbose then
          { st with out := st.out ++
              [Msg.createdZip zfn, Msg.passwordProtected, Msg.dirPreserved tdn] }
         else st, none) := by
  have ht : truthyOpt (some (TomlValue.str p)) = true := by
    simp [truthyOpt, truthy, hp]
  cases verbose <;> simp [buildArchive, ht, hempty]

/-- Witness for C8: a staging directory with no files under it. -/
theorem c8_witness :
    buildArchive "base/out.zip" "base/out" "out.zip" "out" (some (TomlValue.str "pw")) true
        true false exState
      = (if true then
          { exState with out := exState.out ++
              [Msg.createdZip "out.zip", Msg.passwordProtected, Msg.dirPreserved "out"] }
         else exState, none) :=
  c8_encrypted_empty_silent_noop "base/out.zip" "base/out" "out.zip" "out" "pw" true false
    exState (by decide) (by decide)

/-- Claim C9: with `output_enabled` false the archive phase is a no-op
(beyond a console message): `buildArchive` leaves filesystem, log and
archives exactly as staged, and on such a manifest the whole run appends no
archive and no `zip` log row. -/
theorem c9_output_disabled_noop (config zip_config : List (String × TomlValue))
    (base_dir : String) (verbose logOn : Bool) (st : State)
    (hz : dictGet config "zip" = some (TomlValue.table zip_config))
    (ho : dictGet zip_config "output_enabled" = some (TomlValue.boolean false)) :
    (∀ (zp temp zfn tdn : String) (pw : Option TomlValue) (vb lo : Bool) (s : State),
        buildArchive zp temp zfn tdn pw false vb lo s
          = (if vb then { s with out := s.out ++ [Msg.zipDisabled tdn] } else s, none))
    ∧ (process_files config base_dir verbose logOn st).1.archives = st.archives
    ∧ (∀ e ∈ (process_files config base_dir verbose logOn st).1.log,
        e ∈ st.log ∨ e.op = "copy") := by
  have hba : ∀ (zp temp zfn tdn : String) (pw : Option TomlValue) (vb lo : Bool) (s : State),
      buildArchive zp temp zfn tdn pw false vb lo s
        = (if vb then { s with out := s.out ++ [Msg.zipDisabled tdn] } else s, none) :=
    fun zp temp zfn tdn pw vb lo s => rfl
  refine ⟨hba, ?_⟩
  have hne : zip_config.isEmpty = false := by
    cases zip_config with
    | nil => simp [dictGet] at ho
    | cons a l => rfl
  have hcore : ∀ fn : String,
      (processFilesCore config zip_config ((getVariables config).getD []) base_dir verbose logOn
          fn st).1.archives = st.archives
      ∧ (∀ e ∈ (processFilesCore config zip_config ((getVariables config).getD []) base_dir
          verbose logOn fn st).1.log, e ∈ st.log ∨ e.op = "copy") := by
    intro fn
    unfold processFilesCore
    dsimp only
    rw [ho]
    dsimp only [truthy]
    set vars2 := (getVariables config).getD []
    set st0 : State := if logOn then { st with logInit := true, log := [] } else st with hst0
    have h0arch : st0.archives = st.archives := by
      rw [hst0]; cases logOn <;> rfl
    have h0log : ∀ e : LogEntry, e ∈ st0.log → e ∈ st.log := by
      rw [hst0]
      cases logOn
      · exact fun e he => he
      · intro e he
        simp at he
    rcases hloop : processRulesLoop vars2 base_dir
        (pathJoin base_dir (stem (render_path fn vars2)))
        (stem (render_path fn vars2)) verbose logOn (fileSections config) st0 with ⟨st1, e⟩
    have h1arch : st1.archives = st.archives := by
      have := processRulesLoop_archives vars2 base_dir
        (pathJoin base_dir (stem (render_path fn vars2)))
        (stem (render_path fn vars2)) verbose logOn (fileSections config) st0
      rw [hloop] at this
      simpa [h0arch] using this
    have h1log : ∀ x : LogEntry, x ∈ st1.log → x ∈ st.log ∨ x.op = "copy" := by
      intro x hx
      have := processRulesLoop_log_mem vars2 base_dir
        (pathJoin base_dir (stem (render_path fn vars2)))
        (stem (render_path fn vars2)) verbose logOn (fileSections config) st0 x
      rw [hloop] at this
      rcases this hx with h1 | h1
      · exact Or.inl (h0log x h1)
      · exact Or.inr h1
    cases e with
    | some e => exact ⟨h1arch, fun x hx => h1log x hx⟩
    | none => cases verbose <;> exact ⟨h1arch, fun x hx => h1log x hx⟩
  unfold process_files
  rw [hz]
  dsimp only
  rw [hne]
  rcases hfn : dictGet zip_config "file_name" with _ | v
  · rcases hv : getVariables config with _ | vars2
    · exact ⟨rfl, fun e he => Or.inl he⟩
    · have := hcore "output.zip"
      rw [hv] at this
      simpa using this
  · cases v with
    | str fn =>
      rcases hv : getVariables config with _ | vars2
      · exact ⟨rfl, fun e he => Or.inl he⟩
      · have := hcore fn
        rw [hv] at this
        simpa using this
    | int n => exact ⟨rfl, fun e he => Or.inl he⟩
    | boolean b => exact ⟨rfl, fun e he => Or.inl he⟩
    | table t2 => exact ⟨rfl, fun e he => Or.inl he⟩

/-- Witness for C9: a manifest with `output_enabled = false` and one valid
rule leaves archives empty and the log free of `zip` rows. -/
theorem c9_witness :
    buildArchive "base/out.zip" "base/out" "out.zip" "out" none false true true exState
      = (if true then { exState with out := exState.out ++ [Msg.zipDisabled "out"] }
         else exState, none)
    ∧ (process_files [("zip", TomlValue.table [("file_name", TomlValue.str "out.zip"),
          ("output_enabled", TomlValue.boolean false)]),
        ("file2", TomlValue.table [("from", TomlValue.str "b.txt"),
          ("to", TomlValue.str "b.txt")])] "base" true true exState).1.archives
        = exState.archives := by
  have h := c9_output_disabled_noop
    [("zip", TomlValue.table [("file_name", TomlValue.str "out.zip"),
        ("output_enabled", TomlValue.boolean false)]),
     ("file2", TomlValue.table [("from", TomlValue.str "b.txt"), ("to", TomlValue.str "b.txt")])]
    [("file_name", TomlValue.str "out.zip"), ("output_enabled", TomlValue.boolean false)]
    "base" true true exState rfl rfl
  exact ⟨h.1 "base/out.zip" "base/out" "out.zip" "out" none true true exState, h.2.1⟩

end CopyAndTemplate
